import Mathlib

/-!
Verification of the Newton–Raphson root-finding drivers in
`src/utils/newton_raphson.rs` (`newton_raphson_fdiff`, `newton_raphson_broyden`,
`newton_raphson_linsrch`).

Embedding conventions:
* `f64` arithmetic is idealised as exact rational arithmetic (`ℚ`); the float
  literals of the source (`1.0e-7`, `EPSILON`, `0.01`, `100.0`) become the
  corresponding rationals.
* Vectors and matrices of the external linear-algebra collaborator (nalgebra)
  are `Fin n → ℚ` and `Fin n → Fin n → ℚ`; its nontrivial operations —
  the Moore–Penrose `pseudo_inverse`, the Euclidean `norm` (irrational in
  general) — as well as the finite-difference Jacobian estimators
  (`finite_diff.rs`) and the backtracking line search (`linsearch.rs`), which
  are not part of the source under verification, enter the drivers as
  function parameters.  `del_x.norm().powf(2.0)` is embedded exactly as the
  sum of squares `normSq del_x`.
* Rust's early `return` inside the `for` loop becomes a step function
  returning either a final result (`Sum.inl`) or the next loop state
  (`Sum.inr`); the `for _ in 0..MAX_ITER` loop becomes fuel recursion.
  Division in `ℚ` is total (`q / 0 = 0`); the only division whose divisor can
  be zero in the source is the Broyden update's `/ ‖Δx‖²`, and it is shown
  below to run only with a strictly positive divisor.
* Successful results are tagged with the branch (`Branch`) that produced them
  so that theorems can distinguish the already-root shortcut, the
  x-convergence return and the f-convergence return; the untagged solver is
  the projection that forgets the tag.
-/

/-- Real vectors of the linear-algebra collaborator (`VectorN<f64, N>`). -/
abbrev Vec (n : Nat) := Fin n → ℚ

/-- Real square matrices of the linear-algebra collaborator (`MatrixN<f64, N>`). -/
abbrev Mat (n : Nat) := Fin n → Fin n → ℚ

/-- Matrix–vector product `A * v`. -/
def mulVec {n : Nat} (A : Mat n) (v : Vec n) : Vec n :=
  fun i => ∑ j, A i j * v j

/-- Dot product `u.dot(&v)`. -/
def dotV {n : Nat} (u v : Vec n) : ℚ :=
  ∑ i, u i * v i

/-- `v.norm().powf(2.0)`: the squared Euclidean norm, exact in `ℚ`. -/
def normSq {n : Nat} (v : Vec n) : ℚ :=
  dotV v v

/-- Matrix transpose. -/
def transp {n : Nat} (A : Mat n) : Mat n :=
  fun i j => A j i

/-- `const MAX_ITER: i32 = 200` (same in all three drivers). -/
def MAX_ITER : Nat := 200

/-- `const INV_TOL: f64 = EPSILON` — the f64 machine epsilon `2⁻⁵²`. -/
def INV_TOL : ℚ := 1 / 2 ^ 52

/-- `const TOLX: f64 = 1.0_e-7_f64` in `newton_raphson_fdiff` and
`newton_raphson_broyden` (idealised as the exact rational `10⁻⁷`). -/
def TOLX : ℚ := 1 / 10 ^ 7

/-- `const TOLX: f64 = EPSILON` in `newton_raphson_linsrch`. -/
def TOLX_LS : ℚ := 1 / 2 ^ 52

/-- `const STEP_MAX: f64 = 100.0` in `newton_raphson_linsrch`. -/
def STEP_MAX : ℚ := 100

/-- The running-maximum loop
`for idx in 0..dim { if f[idx].abs() > test { test = f[idx].abs() } }`
starting from `test = 0.0`, as used by the initial already-root check of all
three drivers, by the f-convergence test of `newton_raphson_broyden` and
`newton_raphson_linsrch`, and (on `|Δx_i| / max(|x_new_i|,1)` terms) nowhere
else.  Computes `max (0, max_i |v i|)`. -/
def maxAbsLoop {n : Nat} (v : Vec n) : ℚ :=
  (List.finRange n).foldl (fun test idx => if |v idx| > test then |v idx| else test) 0

/-- The f-convergence loop of `newton_raphson_fdiff` (lines 183–188), exactly
as written: `if fk[idx] > test_f { test_f = fk[idx].abs(); }` — the comparison
uses the signed entry `fk[idx]`, not its absolute value. -/
def maxSignedLoop {n : Nat} (v : Vec n) : ℚ :=
  (List.finRange n).foldl (fun test idx => if v idx > test then |v idx| else test) 0

/-- The x-convergence loop shared by all three drivers:
`let temp = (del_x[idx]).abs() / x_new[idx].abs().max(1.0);
 if temp > test_x { test_x = temp; }` starting from `test_x = 0.0`. -/
def maxRelLoop {n : Nat} (del_x x_new : Vec n) : ℚ :=
  (List.finRange n).foldl
    (fun test idx =>
      if |del_x idx| / max |x_new idx| 1 > test then |del_x idx| / max |x_new idx| 1 else test)
    0

/-- Which branch of a driver produced a successful return. -/
inductive Branch : Type where
  | shortcut : Branch
  | xconv : Branch
  | fconv : Branch
deriving DecidableEq

instance {ε α : Type} [DecidableEq ε] [DecidableEq α] : DecidableEq (Except ε α) :=
  fun a b =>
    match a, b with
    | .error x, .error y =>
        if h : x = y then .isTrue (by rw [h]) else
          .isFalse (by intro hxy; injection hxy; exact h (by assumption))
    | .error _, .ok _ => .isFalse (by intro hxy; injection hxy)
    | .ok _, .error _ => .isFalse (by intro hxy; injection hxy)
    | .ok x, .ok y =>
        if h : x = y then .isTrue (by rw [h]) else
          .isFalse (by intro hxy; injection hxy; exact h (by assumption))


instance {α β : Type} [DecidableEq α] [DecidableEq β] : DecidableEq (α ⊕ β) :=
  fun x y =>
    match x, y with
    | .inl u, .inl v =>
        if h : u = v then .isTrue (by rw [h]) else
          .isFalse (by intro hxy; injection hxy; exact h (by assumption))
    | .inl _, .inr _ => .isFalse (by intro hxy; exact Sum.noConfusion hxy)
    | .inr _, .inl _ => .isFalse (by intro hxy; exact Sum.noConfusion hxy)
    | .inr u, .inr v =>
        if h : u = v then .isTrue (by rw [h]) else
          .isFalse (by intro hxy; injection hxy; exact h (by assumption))

/-- Signature of the finite-difference Jacobian estimators `fdiff_jacobian` /
`fdiff_jacobian_2` (external to the file under verification): they receive the
function, the already-computed residual at the base point, and the base point. -/
abbrev JacEst (n : Nat) := (Vec n → Vec n) → Vec n → Vec n → Mat n

/-- Signature of `pseudo_inverse` of the linear-algebra collaborator: a
singular-value cutoff tolerance and a matrix, possibly failing. -/
abbrev Pinv (n : Nat) := ℚ → Mat n → Except String (Mat n)

/-- Signature of `linsrch_w_backtracking` (external):
arguments `x_old`, `f_old`, `grad`, `p`, `stepmax`, merit closure `fmin`;
returns `(x_out, f_vec_out, f_new_out)` or an error.  (The source passes `p`
as `&mut`, but reassigns it from scratch each iteration before the call, so
the mutation is not observable by the driver.) -/
abbrev LinSearch (n : Nat) :=
  Vec n → ℚ → Vec n → Vec n → ℚ → (Vec n → Vec n × ℚ) → Except String (Vec n × Vec n × ℚ)

/-! ### `newton_raphson_fdiff` (lines 117–196) -/

/-- Loop state of `newton_raphson_fdiff`: the mutable locals carried between
iterations (`x_last`, `fk`, `jac_inv`). -/
structure FdiffState (n : Nat) : Type where
  x_last : Vec n
  fk : Vec n
  jac_inv : Mat n

instance {n : Nat} : DecidableEq (FdiffState n) :=
  fun s t =>
    if h1 : s.x_last = t.x_last then
      if h2 : s.fk = t.fk then
        if h3 : s.jac_inv = t.jac_inv then
          .isTrue (by obtain ⟨a, b, c⟩ := s; obtain ⟨d, e, f⟩ := t
                      simp only [] at h1 h2 h3; rw [h1, h2, h3])
        else .isFalse fun hh => h3 (by rw [hh])
      else .isFalse fun hh => h2 (by rw [hh])
    else .isFalse fun hh => h1 (by rw [hh])

/-- `x_new = &x_last - jac_inv * &fk` (line 163). -/
def fdiff_xnew {n : Nat} (s : FdiffState n) : Vec n :=
  s.x_last - mulVec s.jac_inv s.fk

/-- One pass of the `for _j in 0..MAX_ITER` body of `newton_raphson_fdiff`
(lines 161–194): either an early `return` (`Sum.inl`) or the next state. -/
def fdiffStep {n : Nat} (fxn : Vec n → Vec n) (jacF : JacEst n) (pinv : Pinv n) (acc : ℚ)
    (s : FdiffState n) : (Except String (Vec n × Branch)) ⊕ FdiffState n :=
  let x_new := fdiff_xnew s
  let del_x := x_new - s.x_last
  let test_x := maxRelLoop del_x x_new
  if test_x < TOLX then .inl (.ok (s.x_last, .xconv))
  else
    let fk := fxn x_new
    let test_f := maxSignedLoop fk
    if test_f < acc then .inl (.ok (x_new, .fconv))
    else
      match pinv INV_TOL (jacF fxn fk x_new) with
      | .error e => .inl (.error e)
      | .ok ji => .inr ⟨x_new, fk, ji⟩

/-- The iteration loop of `newton_raphson_fdiff` with fuel, also counting the
number of loop bodies entered; exhausted fuel is the loop falling through to
`return Err("Maximum Number of Iterations Reached")`. -/
def fdiffLoop {n : Nat} (fxn : Vec n → Vec n) (jacF : JacEst n) (pinv : Pinv n) (acc : ℚ) :
    Nat → FdiffState n → (Except String (Vec n × Branch)) × Nat
  | 0, _ => (.error "Maximum Number of Iterations Reached", 0)
  | fuel + 1, s =>
    match fdiffStep fxn jacF pinv acc s with
    | .inl r => (r, 1)
    | .inr s' =>
      let rest := fdiffLoop fxn jacF pinv acc fuel s'
      (rest.1, rest.2 + 1)

/-- `newton_raphson_fdiff` with the successful result tagged by the branch
that produced it.  Mirrors lines 117–196: evaluate `fk = fxn(&x_0)`, take the
already-root shortcut when `max_i |fk_i| < 0.01*acc`, otherwise pseudo-invert
the initial finite-difference Jacobian (`?` propagating its error) and run the
iteration loop. -/
def newton_raphson_fdiffT {n : Nat} (jacF : JacEst n) (pinv : Pinv n)
    (fxn : Vec n → Vec n) (x_0 : Vec n) (acc : ℚ) : Except String (Vec n × Branch) :=
  let fk := fxn x_0
  let test := maxAbsLoop fk
  if test < (1 / 100) * acc then .ok (x_0, .shortcut)
  else
    match pinv INV_TOL (jacF fxn fk x_0) with
    | .error e => .error e
    | .ok ji => (fdiffLoop fxn jacF pinv acc MAX_ITER ⟨x_0, fk, ji⟩).1

/-- `newton_raphson_fdiff` (lines 117–196), forgetting the branch tag. -/
def newton_raphson_fdiff {n : Nat} (jacF : JacEst n) (pinv : Pinv n)
    (fxn : Vec n → Vec n) (x_0 : Vec n) (acc : ℚ) : Except String (Vec n) :=
  (newton_raphson_fdiffT jacF pinv fxn x_0 acc).map Prod.fst

/-! ### `newton_raphson_broyden` (lines 26–114) -/

/-- Loop state of `newton_raphson_broyden`: the mutable locals carried between
iterations (`x_last`, `f_n`, `jac`). -/
structure BroydenState (n : Nat) : Type where
  x_last : Vec n
  f_n : Vec n
  jac : Mat n

instance {n : Nat} : DecidableEq (BroydenState n) :=
  fun s t =>
    if h1 : s.x_last = t.x_last then
      if h2 : s.f_n = t.f_n then
        if h3 : s.jac = t.jac then
          .isTrue (by obtain ⟨a, b, c⟩ := s; obtain ⟨d, e, f⟩ := t
                      simp only [] at h1 h2 h3; rw [h1, h2, h3])
        else .isFalse fun hh => h3 (by rw [hh])
      else .isFalse fun hh => h2 (by rw [hh])
    else .isFalse fun hh => h1 (by rw [hh])

/-- `x_new = &x_last - jac.pseudo_inverse(INV_TOL)? * &f_n` (line 78) of
`newton_raphson_broyden`, given the pseudo-inverse `ji` of the current
Jacobian. -/
def broyden_xnew {n : Nat} (s : BroydenState n) (ji : Mat n) : Vec n :=
  s.x_last - mulVec ji s.f_n

/-- One pass of the `for _ in 0..MAX_ITER` body of `newton_raphson_broyden`
(lines 76–112): pseudo-invert the current Jacobian (`?` propagating failure),
step, test x-convergence (returning the pre-step `x_last`), re-evaluate the
function, test f-convergence (returning `x_new`), then apply the rank-one
Broyden update `jac + (del_f - jac*del_x) / ‖del_x‖² * del_xᵗ`. -/
def broydenStep {n : Nat} (fxn : Vec n → Vec n) (pinv : Pinv n) (acc : ℚ)
    (s : BroydenState n) : (Except String (Vec n × Branch)) ⊕ BroydenState n :=
  match pinv INV_TOL s.jac with
  | .error e => .inl (.error e)
  | .ok ji =>
    let x_new := broyden_xnew s ji
    let del_x := x_new - s.x_last
    let del_x_norm_sq := normSq del_x
    let test_x := maxRelLoop del_x x_new
    if test_x < TOLX then .inl (.ok (s.x_last, .xconv))
    else
      let f_last := s.f_n
      let f_n := fxn x_new
      let del_f := f_n - f_last
      let test_f := maxAbsLoop f_n
      if test_f < acc then .inl (.ok (x_new, .fconv))
      else
        .inr ⟨x_new, f_n,
          fun i j => s.jac i j + (del_f i - mulVec s.jac del_x i) / del_x_norm_sq * del_x j⟩

/-- The iteration loop of `newton_raphson_broyden` with fuel and an iteration
count; exhausted fuel is
`return Err("[NEWTON BROYDEN] Maximum Number of Iterations Reached")`. -/
def broydenLoop {n : Nat} (fxn : Vec n → Vec n) (pinv : Pinv n) (acc : ℚ) :
    Nat → BroydenState n → (Except String (Vec n × Branch)) × Nat
  | 0, _ => (.error "[NEWTON BROYDEN] Maximum Number of Iterations Reached", 0)
  | fuel + 1, s =>
    match broydenStep fxn pinv acc s with
    | .inl r => (r, 1)
    | .inr s' =>
      let rest := broydenLoop fxn pinv acc fuel s'
      (rest.1, rest.2 + 1)

/-- `newton_raphson_broyden` with the successful result tagged by branch.
Mirrors lines 26–114: evaluate `f_n = fxn(&x_0)`, take the already-root
shortcut when `max_i |f_n_i| < 0.01*acc` (returning `x_last = x_0.clone()`),
otherwise estimate the Jacobian once via `fdiff_jacobian_2(&fxn, &f_n, &x_0)`
and run the iteration loop. -/
def newton_raphson_broydenT {n : Nat} (jacF2 : JacEst n) (pinv : Pinv n)
    (fxn : Vec n → Vec n) (x_0 : Vec n) (acc : ℚ) : Except String (Vec n × Branch) :=
  let f_n := fxn x_0
  let x_last := x_0
  let test := maxAbsLoop f_n
  if test < (1 / 100) * acc then .ok (x_last, .shortcut)
  else (broydenLoop fxn pinv acc MAX_ITER ⟨x_0, f_n, jacF2 fxn f_n x_0⟩).1

/-- `newton_raphson_broyden` (lines 26–114), forgetting the branch tag. -/
def newton_raphson_broyden {n : Nat} (jacF2 : JacEst n) (pinv : Pinv n)
    (fxn : Vec n → Vec n) (x_0 : Vec n) (acc : ℚ) : Except String (Vec n) :=
  (newton_raphson_broydenT jacF2 pinv fxn x_0 acc).map Prod.fst

/-! ### `newton_raphson_linsrch` (lines 200–303) -/

/-- The merit closure `fmin` of `newton_raphson_linsrch` (lines 222–225):
returns the residual `F(x)` together with the scalar merit `½ F·F`. -/
def fminOf {n : Nat} (fxn : Vec n → Vec n) : Vec n → Vec n × ℚ :=
  fun x =>
    let big_f := fxn x
    (big_f, 1 / 2 * dotV big_f big_f)

/-- `grad = &jac * &f_vec` (line 262): the driver's merit-gradient
computation, a plain matrix–vector product of the Jacobian (no transpose). -/
def linsrch_grad {n : Nat} (jac : Mat n) (f_vec : Vec n) : Vec n :=
  mulVec jac f_vec

/-- Loop state of `newton_raphson_linsrch`: the mutable locals carried between
iterations (`x_new`, `f_vec`, `f_new`). -/
structure LinsrchState (n : Nat) : Type where
  x_new : Vec n
  f_vec : Vec n
  f_new : ℚ

instance {n : Nat} : DecidableEq (LinsrchState n) :=
  fun s t =>
    if h1 : s.x_new = t.x_new then
      if h2 : s.f_vec = t.f_vec then
        if h3 : s.f_new = t.f_new then
          .isTrue (by obtain ⟨a, b, c⟩ := s; obtain ⟨d, e, f⟩ := t
                      simp only [] at h1 h2 h3; rw [h1, h2, h3])
        else .isFalse fun hh => h3 (by rw [hh])
      else .isFalse fun hh => h2 (by rw [hh])
    else .isFalse fun hh => h1 (by rw [hh])

/-- One pass of the `for _j in 0..MAX_ITER` body of `newton_raphson_linsrch`
(lines 257–301): fresh finite-difference Jacobian, merit gradient, Newton
direction `p = -(J⁺ f_vec)` (`?` propagating pseudo-inverse failure), the
line search (`?` propagating its failure), then the f-convergence and
x-convergence tests (both returning the accepted point `x_new`). -/
def linsrchStep {n : Nat} (fxn : Vec n → Vec n) (jacF : JacEst n) (pinv : Pinv n)
    (lsP : LinSearch n) (stepmax acc : ℚ)
    (s : LinsrchState n) : (Except String (Vec n × Branch)) ⊕ LinsrchState n :=
  let jac := jacF fxn s.f_vec s.x_new
  let grad := linsrch_grad jac s.f_vec
  match pinv INV_TOL jac with
  | .error e => .inl (.error e)
  | .ok pj =>
    let p := -(mulVec pj s.f_vec)
    let x_old := s.x_new
    let f_old := s.f_new
    match lsP x_old f_old grad p stepmax (fminOf fxn) with
    | .error e => .inl (.error e)
    | .ok (x_out, f_vec_out, f_new_out) =>
      let test_f := maxAbsLoop f_vec_out
      if test_f < acc then .inl (.ok (x_out, .fconv))
      else
        let test_x := maxRelLoop (x_out - x_old) x_out
        if test_x < TOLX_LS then .inl (.ok (x_out, .xconv))
        else .inr ⟨x_out, f_vec_out, f_new_out⟩

/-- The iteration loop of `newton_raphson_linsrch` with fuel and an iteration
count; exhausted fuel is `return Err("Maximum Number of Iterations Reached")`. -/
def linsrchLoop {n : Nat} (fxn : Vec n → Vec n) (jacF : JacEst n) (pinv : Pinv n)
    (lsP : LinSearch n) (stepmax acc : ℚ) :
    Nat → LinsrchState n → (Except String (Vec n × Branch)) × Nat
  | 0, _ => (.error "Maximum Number of Iterations Reached", 0)
  | fuel + 1, s =>
    match linsrchStep fxn jacF pinv lsP stepmax acc s with
    | .inl r => (r, 1)
    | .inr s' =>
      let rest := linsrchLoop fxn jacF pinv lsP stepmax acc fuel s'
      (rest.1, rest.2 + 1)

/-- `newton_raphson_linsrch` with the successful result tagged by branch.
Mirrors lines 200–303: evaluate the merit closure at `x_0`, take the
already-root shortcut when `max_i |F(x_0)_i| < 0.01*acc`, compute
`stepmax = STEP_MAX * max(‖x_0‖, dim)` (the Euclidean norm entering through
the collaborator parameter `normV`), and run the iteration loop. -/
def newton_raphson_linsrchT {n : Nat} (jacF : JacEst n) (pinv : Pinv n)
    (lsP : LinSearch n) (normV : Vec n → ℚ)
    (fxn : Vec n → Vec n) (x_0 : Vec n) (acc : ℚ) : Except String (Vec n × Branch) :=
  let fm := fminOf fxn
  let f_vec := (fm x_0).1
  let f_new := (fm x_0).2
  let test := maxAbsLoop f_vec
  if test < (1 / 100) * acc then .ok (x_0, .shortcut)
  else
    let stepmax := STEP_MAX * max (normV x_0) (n : ℚ)
    (linsrchLoop fxn jacF pinv lsP stepmax acc MAX_ITER ⟨x_0, f_vec, f_new⟩).1

/-- `newton_raphson_linsrch` (lines 200–303), forgetting the branch tag. -/
def newton_raphson_linsrch {n : Nat} (jacF : JacEst n) (pinv : Pinv n)
    (lsP : LinSearch n) (normV : Vec n → ℚ)
    (fxn : Vec n → Vec n) (x_0 : Vec n) (acc : ℚ) : Except String (Vec n) :=
  (newton_raphson_linsrchT jacF pinv lsP normV fxn x_0 acc).map Prod.fst

/-! ### Concrete collaborator instances for witnesses and counterexamples -/

/-- Modelled from the spec: the finite-difference Jacobian estimators of
`finite_diff.rs` (`fdiff_jacobian`, `fdiff_jacobian_2`), whose source is not
under `src/`.  Per §4.1, column `j` approximates `∂F/∂x_j` by a forward
difference with a small step `h`, reusing the supplied base residual `f0`. -/
def fdiff_jacobian_model {n : Nat} (h : ℚ) : JacEst n :=
  fun fxn f0 x => fun i j => (fxn (fun k => x k + if k = j then h else 0) i - f0 i) / h

/-- Modelled from the spec: the collaborator's Moore–Penrose `pseudo_inverse`
with a singular-value cutoff tolerance (§6, glossary), specialised to `1×1`
matrices, whose only singular value is `|a|`: below the cutoff the
pseudo-inverse is the zero matrix, otherwise `[1/a]`. -/
def pinv_model : Pinv 1 :=
  fun tol A => .ok (fun _ _ => if |A 0 0| ≤ tol then 0 else (A 0 0)⁻¹)

/-- A collaborator double: a pseudo-inverse that always succeeds with the
`1×1` identity. -/
def pinv_one : Pinv 1 := fun _ _ => .ok (fun _ _ => 1)

/-- A collaborator double: a pseudo-inverse that always fails, as when the
decomposition does not converge. -/
def pinv_fail {n : Nat} : Pinv n := fun _ _ => .error "SVD failed"

/-- A collaborator double for `linsrch_w_backtracking`: accepts the full
Newton step and reports the merit closure's outputs there. -/
def ls_full_step {n : Nat} : LinSearch n :=
  fun x_old _ _ p _ fm => .ok (x_old + p, (fm (x_old + p)).1, (fm (x_old + p)).2)

/-- A collaborator double for `linsrch_w_backtracking` that never converges:
it always moves by one and reports a residual of one. -/
def ls_drift : LinSearch 1 :=
  fun x_old _ _ _ _ _ => .ok (x_old + ![1], ![1], 1 / 2)

/-- A collaborator double for the Euclidean norm. -/
def normDouble {n : Nat} : Vec n → ℚ := fun _ => 0

/-- The constant residual `F(x) = (1)`. -/
def Fconst1 : Vec 1 → Vec 1 := fun _ => ![1]

/-- The constant residual `F(x) = (2)`. -/
def Fconst2 : Vec 1 → Vec 1 := fun _ => ![2]

/-- The rootless residual `F(x) = (-(x² + 1))`, everywhere negative. -/
def Fnegsq : Vec 1 → Vec 1 := fun v => ![-(v 0 * v 0 + 1)]

/-- The linear residual `F(x) = (x - 3)`, with root `3`. -/
def Flin : Vec 1 → Vec 1 := fun v => ![v 0 - 3]

/-- The residual `F(x) = (x²)`. -/
def Fsq : Vec 1 → Vec 1 := fun v => ![v 0 * v 0]

/-- The zero residual `F(x) = (0)`. -/
def Fzero : Vec 1 → Vec 1 := fun _ => ![0]

/-- The residual `F(x) = (x² - 4)`. -/
def Fsqm4 : Vec 1 → Vec 1 := fun v => ![v 0 * v 0 - 4]

/-- The merit-function gradient as the spec describes it:
`g = Jᵗ F` (the transpose of the Jacobian times the residual), stated for
comparison with the driver's `linsrch_grad`. -/
def merit_grad_spec {n : Nat} (jac : Mat n) (f_vec : Vec n) : Vec n :=
  mulVec (transp jac) f_vec

/-- A non-symmetric Jacobian distinguishing `J·F` from `Jᵗ·F`. -/
def c3J : Mat 2 := ![![0, 1], ![0, 0]]

/-- A residual vector distinguishing `J·F` from `Jᵗ·F` at `c3J`. -/
def c3F : Vec 2 := ![1, 0]

/-- `true` iff `fuel` successive iterations of `newton_raphson_fdiff` from
state `s` all fall through to the next iteration (no convergence return and
no error). -/
def fdiffAllContinue {n : Nat} (fxn : Vec n → Vec n) (jacF : JacEst n) (pinv : Pinv n)
    (acc : ℚ) : Nat → FdiffState n → Bool
  | 0, _ => true
  | fuel + 1, s =>
    match fdiffStep fxn jacF pinv acc s with
    | .inl _ => false
    | .inr s' => fdiffAllContinue fxn jacF pinv acc fuel s'

/-- `true` iff `fuel` successive iterations of `newton_raphson_broyden` from
state `s` all fall through to the next iteration. -/
def broydenAllContinue {n : Nat} (fxn : Vec n → Vec n) (pinv : Pinv n)
    (acc : ℚ) : Nat → BroydenState n → Bool
  | 0, _ => true
  | fuel + 1, s =>
    match broydenStep fxn pinv acc s with
    | .inl _ => false
    | .inr s' => broydenAllContinue fxn pinv acc fuel s'

/-- `true` iff `fuel` successive iterations of `newton_raphson_linsrch` from
state `s` all fall through to the next iteration. -/
def linsrchAllContinue {n : Nat} (fxn : Vec n → Vec n) (jacF : JacEst n) (pinv : Pinv n)
    (lsP : LinSearch n) (stepmax acc : ℚ) : Nat → LinsrchState n → Bool
  | 0, _ => true
  | fuel + 1, s =>
    match linsrchStep fxn jacF pinv lsP stepmax acc s with
    | .inl _ => false
    | .inr s' => linsrchAllContinue fxn jacF pinv lsP stepmax acc fuel s'

/-! ### Helper lemmas -/

theorem foldl_if_max_init_le {α : Type} (g : α → ℚ) :
    ∀ (l : List α) (a : ℚ), a ≤ l.foldl (fun t i => if g i > t then g i else t) a := by
  intro l
  induction l with
  | nil => intro a; exact le_refl a
  | cons x xs ih =>
    intro a
    rw [List.foldl_cons]
    refine le_trans ?_ (ih (if g x > a then g x else a))
    by_cases h : g x > a
    · rw [if_pos h]; exact le_of_lt h
    · rw [if_neg h]

theorem foldl_if_max_le_of_mem {α : Type} (g : α → ℚ) :
    ∀ (l : List α) (a : ℚ) (i : α), i ∈ l →
      g i ≤ l.foldl (fun t i => if g i > t then g i else t) a := by
  intro l
  induction l with
  | nil => intro a i h; exact absurd h (List.not_mem_nil i)
  | cons x xs ih =>
    intro a i h
    rw [List.foldl_cons]
    rcases List.mem_cons.mp h with h | h
    · subst h
      refine le_trans ?_ (foldl_if_max_init_le g xs _)
      by_cases hx : g i > a
      · rw [if_pos hx]
      · rw [if_neg hx]; exact le_of_not_lt hx
    · exact ih _ i h

theorem foldl_if_max_le {α : Type} (g : α → ℚ) (c : ℚ) :
    ∀ (l : List α) (a : ℚ), a ≤ c → (∀ i ∈ l, g i ≤ c) →
      l.foldl (fun t i => if g i > t then g i else t) a ≤ c := by
  intro l
  induction l with
  | nil => intro a ha _; exact ha
  | cons x xs ih =>
    intro a ha hg
    rw [List.foldl_cons]
    refine ih _ ?_ fun i hi => hg i (List.mem_cons_of_mem x hi)
    by_cases hx : g x > a
    · rw [if_pos hx]; exact hg x (List.mem_cons_self x xs)
    · rw [if_neg hx]; exact ha

theorem forall_abs_lt_of_maxAbsLoop_lt {n : Nat} {v : Vec n} {c : ℚ}
    (h : maxAbsLoop v < c) (i : Fin n) : |v i| < c :=
  lt_of_le_of_lt
    (foldl_if_max_le_of_mem (fun i => |v i|) (List.finRange n) 0 i (List.mem_finRange i)) h

theorem normSq_nonneg {n : Nat} (v : Vec n) : 0 ≤ normSq v :=
  Finset.sum_nonneg fun i _ => mul_self_nonneg (v i)

theorem normSq_pos_of_ne {n : Nat} {v : Vec n} {i : Fin n} (h : v i ≠ 0) : 0 < normSq v :=
  lt_of_lt_of_le (mul_self_pos.mpr h)
    (Finset.single_le_sum (f := fun j => v j * v j) (fun j _ => mul_self_nonneg (v j))
      (Finset.mem_univ i))

theorem maxRelLoop_nonpos_of_zero {n : Nat} {del_x : Vec n} (x_new : Vec n)
    (h : ∀ i, del_x i = 0) : maxRelLoop del_x x_new ≤ 0 := by
  refine foldl_if_max_le (fun i => |del_x i| / max |x_new i| 1) 0 (List.finRange n) 0
    (le_refl 0) fun i _ => ?_
  simp only [h i, abs_zero, zero_div, le_refl]

theorem fdiffLoop_count_le {n : Nat} (fxn : Vec n → Vec n) (jacF : JacEst n) (pinv : Pinv n)
    (acc : ℚ) : ∀ (fuel : Nat) (s : FdiffState n),
      (fdiffLoop fxn jacF pinv acc fuel s).2 ≤ fuel := by
  intro fuel
  induction fuel with
  | zero => intro s; exact le_refl 0
  | succ k ih =>
    intro s
    cases hs : fdiffStep fxn jacF pinv acc s with
    | inl r => simp [fdiffLoop, hs]
    | inr s' =>
      simp only [fdiffLoop, hs]
      exact Nat.succ_le_succ (ih s')

theorem broydenLoop_count_le {n : Nat} (fxn : Vec n → Vec n) (pinv : Pinv n)
    (acc : ℚ) : ∀ (fuel : Nat) (s : BroydenState n),
      (broydenLoop fxn pinv acc fuel s).2 ≤ fuel := by
  intro fuel
  induction fuel with
  | zero => intro s; exact le_refl 0
  | succ k ih =>
    intro s
    cases hs : broydenStep fxn pinv acc s with
    | inl r => simp [broydenLoop, hs]
    | inr s' =>
      simp only [broydenLoop, hs]
      exact Nat.succ_le_succ (ih s')

theorem linsrchLoop_count_le {n : Nat} (fxn : Vec n → Vec n) (jacF : JacEst n) (pinv : Pinv n)
    (lsP : LinSearch n) (stepmax acc : ℚ) : ∀ (fuel : Nat) (s : LinsrchState n),
      (linsrchLoop fxn jacF pinv lsP stepmax acc fuel s).2 ≤ fuel := by
  intro fuel
  induction fuel with
  | zero => intro s; exact le_refl 0
  | succ k ih =>
    intro s
    cases hs : linsrchStep fxn jacF pinv lsP stepmax acc s with
    | inl r => simp [linsrchLoop, hs]
    | inr s' =>
      simp only [linsrchLoop, hs]
      exact Nat.succ_le_succ (ih s')

theorem fdiffLoop_error_of_allContinue {n : Nat} (fxn : Vec n → Vec n) (jacF : JacEst n)
    (pinv : Pinv n) (acc : ℚ) : ∀ (fuel : Nat) (s : FdiffState n),
      fdiffAllContinue fxn jacF pinv acc fuel s = true →
      (fdiffLoop fxn jacF pinv acc fuel s).1 = .error "Maximum Number of Iterations Reached" := by
  intro fuel
  induction fuel with
  | zero => intro s _; rfl
  | succ k ih =>
    intro s h
    cases hs : fdiffStep fxn jacF pinv acc s with
    | inl r => rw [fdiffAllContinue, hs] at h; exact absurd h (by simp)
    | inr s' =>
      rw [fdiffAllContinue, hs] at h
      simp only [fdiffLoop, hs]
      exact ih s' h

theorem broydenLoop_error_of_allContinue {n : Nat} (fxn : Vec n → Vec n)
    (pinv : Pinv n) (acc : ℚ) : ∀ (fuel : Nat) (s : BroydenState n),
      broydenAllContinue fxn pinv acc fuel s = true →
      (broydenLoop fxn pinv acc fuel s).1 =
        .error "[NEWTON BROYDEN] Maximum Number of Iterations Reached" := by
  intro fuel
  induction fuel with
  | zero => intro s _; rfl
  | succ k ih =>
    intro s h
    cases hs : broydenStep fxn pinv acc s with
    | inl r => rw [broydenAllContinue, hs] at h; exact absurd h (by simp)
    | inr s' =>
      rw [broydenAllContinue, hs] at h
      simp only [broydenLoop, hs]
      exact ih s' h

theorem linsrchLoop_error_of_allContinue {n : Nat} (fxn : Vec n → Vec n) (jacF : JacEst n)
    (pinv : Pinv n) (lsP : LinSearch n) (stepmax acc : ℚ) :
    ∀ (fuel : Nat) (s : LinsrchState n),
      linsrchAllContinue fxn jacF pinv lsP stepmax acc fuel s = true →
      (linsrchLoop fxn jacF pinv lsP stepmax acc fuel s).1 =
        .error "Maximum Number of Iterations Reached" := by
  intro fuel
  induction fuel with
  | zero => intro s _; rfl
  | succ k ih =>
    intro s h
    cases hs : linsrchStep fxn jacF pinv lsP stepmax acc s with
    | inl r => rw [linsrchAllContinue, hs] at h; exact absurd h (by simp)
    | inr s' =>
      rw [linsrchAllContinue, hs] at h
      simp only [linsrchLoop, hs]
      exact ih s' h

theorem broydenStep_fconv {n : Nat} {fxn : Vec n → Vec n} {pinv : Pinv n} {acc : ℚ}
    {s : BroydenState n} {x : Vec n}
    (h : broydenStep fxn pinv acc s = .inl (.ok (x, .fconv))) :
    maxAbsLoop (fxn x) < acc := by
  rw [broydenStep] at h
  cases hp : pinv INV_TOL s.jac with
  | error e => rw [hp] at h; simp at h
  | ok ji =>
    rw [hp] at h
    simp only [] at h
    split_ifs at h with h1 h2
    · simp at h
    · simp only [Sum.inl.injEq, Except.ok.injEq, Prod.mk.injEq] at h
      rw [← h.1]
      exact h2

theorem broydenLoop_fconv {n : Nat} (fxn : Vec n → Vec n) (pinv : Pinv n) (acc : ℚ) :
    ∀ (fuel : Nat) (s : BroydenState n) (x : Vec n),
      (broydenLoop fxn pinv acc fuel s).1 = .ok (x, .fconv) →
      maxAbsLoop (fxn x) < acc := by
  intro fuel
  induction fuel with
  | zero => intro s x h; simp [broydenLoop] at h
  | succ k ih =>
    intro s x h
    cases hs : broydenStep fxn pinv acc s with
    | inl r =>
      simp only [broydenLoop, hs] at h
      subst h
      exact broydenStep_fconv hs
    | inr s' =>
      simp only [broydenLoop, hs] at h
      exact ih s' x h

theorem linsrchStep_fconv {n : Nat} {fxn : Vec n → Vec n} {jacF : JacEst n} {pinv : Pinv n}
    {lsP : LinSearch n} {stepmax acc : ℚ} {s : LinsrchState n} {x : Vec n}
    (hls : ∀ x_old f_old g p sm r, lsP x_old f_old g p sm (fminOf fxn) = .ok r → r.2.1 = fxn r.1)
    (h : linsrchStep fxn jacF pinv lsP stepmax acc s = .inl (.ok (x, .fconv))) :
    maxAbsLoop (fxn x) < acc := by
  rw [linsrchStep] at h
  cases hp : pinv INV_TOL (jacF fxn s.f_vec s.x_new) with
  | error e => rw [hp] at h; simp at h
  | ok pj =>
    rw [hp] at h
    simp only [] at h
    cases hl : lsP s.x_new s.f_new (linsrch_grad (jacF fxn s.f_vec s.x_new) s.f_vec)
        (-mulVec pj s.f_vec) stepmax (fminOf fxn) with
    | error e => rw [hl] at h; simp at h
    | ok r =>
      rw [hl] at h
      have hr := hls _ _ _ _ _ _ hl
      obtain ⟨x_out, f_vec_out, f_new_out⟩ := r
      simp only [] at h hr
      split_ifs at h with h1 h2
      · simp only [Sum.inl.injEq, Except.ok.injEq, Prod.mk.injEq] at h
        rw [← h.1, ← hr]
        exact h1
      · simp at h

theorem linsrchLoop_fconv {n : Nat} (fxn : Vec n → Vec n) (jacF : JacEst n) (pinv : Pinv n)
    (lsP : LinSearch n) (stepmax acc : ℚ)
    (hls : ∀ x_old f_old g p sm r, lsP x_old f_old g p sm (fminOf fxn) = .ok r → r.2.1 = fxn r.1) :
    ∀ (fuel : Nat) (s : LinsrchState n) (x : Vec n),
      (linsrchLoop fxn jacF pinv lsP stepmax acc fuel s).1 = .ok (x, .fconv) →
      maxAbsLoop (fxn x) < acc := by
  intro fuel
  induction fuel with
  | zero => intro s x h; simp [linsrchLoop] at h
  | succ k ih =>
    intro s x h
    cases hs : linsrchStep fxn jacF pinv lsP stepmax acc s with
    | inl r =>
      simp only [linsrchLoop, hs] at h
      subst h
      exact linsrchStep_fconv hls hs
    | inr s' =>
      simp only [linsrchLoop, hs] at h
      exact ih s' x h

/-! ### Claims -/

set_option maxRecDepth 100000 in
/-- C1, counterexample.  The claim "any `Ok(x*)` not produced by the initial
already-root shortcut has `‖F(x*)‖∞ < acc`" is false: (a) the Broyden driver
on the constant residual `F ≡ (2)` with `acc = 1` returns `Ok(x₀)` through the
x-convergence branch (the finite-difference Jacobian of a constant function is
zero, its pseudo-inverse is zero, so the step is zero) while `‖F(x₀)‖∞ = 2 ≥ 1`;
(b) the finite-difference driver on `F(x) = -(x²+1)` from `x₀ = 1` with
`acc = 1/2` returns `Ok(1/2001)` through its residual-convergence branch —
whose comparison reads the signed entries — while `‖F(1/2001)‖∞ > 1 ≥ 1/2`. -/
theorem c1_counterexample :
    (newton_raphson_broyden (fdiff_jacobian_model (1 / 1000)) pinv_model Fconst2 ![0] 1 =
        .ok ![0] ∧
      newton_raphson_broydenT (fdiff_jacobian_model (1 / 1000)) pinv_model Fconst2 ![0] 1 =
        .ok (![0], .xconv) ∧
      ¬ maxAbsLoop (Fconst2 ![0]) < 1) ∧
    (newton_raphson_fdiff (fdiff_jacobian_model (1 / 1000)) pinv_model Fnegsq ![1] (1 / 2) =
        .ok ![1 / 2001] ∧
      newton_raphson_fdiffT (fdiff_jacobian_model (1 / 1000)) pinv_model Fnegsq ![1] (1 / 2) =
        .ok (![1 / 2001], .fconv) ∧
      ¬ maxAbsLoop (Fnegsq ![1 / 2001]) < 1 / 2) := by
  with_unfolding_all decide

/-- C1, amended: if `newton_raphson_broyden` returns `Ok(x*)` through the
residual-convergence branch then `‖F(x*)‖∞ < acc`, and likewise for
`newton_raphson_linsrch` provided the line-search collaborator reports the
true residual at the point it returns; the x-convergence branches of all
drivers and the (signed) residual test of `newton_raphson_fdiff` give no such
guarantee (see the counterexample). -/
theorem c1_root_property_on_fconv {n : Nat} (jacF2 jacF : JacEst n) (pinv : Pinv n)
    (lsP : LinSearch n) (normV : Vec n → ℚ) (fxn : Vec n → Vec n) (x_0 : Vec n) (acc : ℚ)
    (x : Vec n) :
    (newton_raphson_broydenT jacF2 pinv fxn x_0 acc = .ok (x, .fconv) →
      ∀ i, |fxn x i| < acc) ∧
    ((∀ x_old f_old g p sm r, lsP x_old f_old g p sm (fminOf fxn) = .ok r → r.2.1 = fxn r.1) →
      newton_raphson_linsrchT jacF pinv lsP normV fxn x_0 acc = .ok (x, .fconv) →
      ∀ i, |fxn x i| < acc) := by
  constructor
  · intro h i
    simp only [newton_raphson_broydenT] at h
    by_cases hsc : maxAbsLoop (fxn x_0) < 1 / 100 * acc
    · rw [if_pos hsc] at h; simp at h
    · rw [if_neg hsc] at h
      exact forall_abs_lt_of_maxAbsLoop_lt (broydenLoop_fconv fxn pinv acc MAX_ITER _ x h) i
  · intro hls h i
    simp only [newton_raphson_linsrchT, fminOf] at h
    by_cases hsc : maxAbsLoop (fxn x_0) < 1 / 100 * acc
    · rw [if_pos hsc] at h; simp at h
    · rw [if_neg hsc] at h
      exact forall_abs_lt_of_maxAbsLoop_lt
        (linsrchLoop_fconv fxn jacF pinv lsP _ acc hls MAX_ITER _ x h) i

set_option maxRecDepth 100000 in
/-- C1, witness: concrete f-convergence runs of the Broyden and line-search
drivers on `F(x) = x - 3`, instantiating the amended theorem. -/
theorem c1_root_property_on_fconv_witness :
    |Flin ![3] 0| < 1 ∧ |Flin ![3] 0| < 1 / 2 := by
  constructor
  · exact (c1_root_property_on_fconv (fdiff_jacobian_model (1 / 1000))
      (fdiff_jacobian_model (1 / 1000)) pinv_model ls_full_step normDouble Flin ![0] 1 ![3]).1
      (by with_unfolding_all decide) 0
  · exact (c1_root_property_on_fconv (fdiff_jacobian_model (1 / 1000))
      (fdiff_jacobian_model (1 / 1000)) pinv_model ls_full_step normDouble Flin ![0] (1 / 2)
      ![3]).2
      (fun _ _ _ _ _ r hr => by cases hr; rfl)
      (by with_unfolding_all decide) 0

set_option maxRecDepth 100000 in
/-- C2: the f-convergence test of `newton_raphson_fdiff` does **not** compute
`max_i |F(x_new)_i|` — its comparison reads the signed entry (`fk[idx] >
test_f`, line 185), so negative components are never recorded: on the residual
`(-5)` the code's running maximum is `0` while `max_i |F_i| = 5`, and at a
concrete loop state on `F(x) = -(x²+1)` the step declares f-convergence and
returns `x_new = (1/2001)` although `‖F(x_new)‖∞ ≥ acc = 1/2`. -/
theorem c2_fdiff_residual_test_drops_abs :
    maxSignedLoop ![(-5 : ℚ)] = 0 ∧
    maxAbsLoop ![(-5 : ℚ)] = 5 ∧
    fdiffStep Fnegsq (fdiff_jacobian_model (1 / 1000)) pinv_model (1 / 2)
        ⟨![1], ![-2], ![![-(1000 / 2001)]]⟩ = .inl (.ok (![1 / 2001], .fconv)) ∧
    ¬ maxAbsLoop (Fnegsq ![1 / 2001]) < 1 / 2 := by
  with_unfolding_all decide

/-- C3: the driver's merit-gradient computation (line 262) is `grad = J·F`,
not the `g = Jᵗ·F` stated by the spec and required of the gradient of
`½‖F‖²`: at the non-symmetric Jacobian `[[0,1],[0,0]]` and residual `(1,0)`
the code produces `(0,0)` while `Jᵗ·F = (0,1)`.  (The Newton direction of the
same lines, `p = -(J⁺·F)`, does match the spec — see `linsrchStep`.) -/
theorem c3_grad_is_not_transposed :
    linsrch_grad c3J c3F = ![(0 : ℚ), 0] ∧
    merit_grad_spec c3J c3F = ![(0 : ℚ), 1] ∧
    linsrch_grad c3J c3F ≠ merit_grad_spec c3J c3F := by
  with_unfolding_all decide

/-- C4: in `newton_raphson_fdiff` and `newton_raphson_broyden`, an iteration
whose relative step test passes returns the pre-step point `x_last`, and an
iteration whose (subsequent) residual test passes returns the freshly computed
`x_new`. -/
theorem c4_xconv_returns_xlast_fconv_returns_xnew {n : Nat} (fxn : Vec n → Vec n)
    (jacF : JacEst n) (pinv : Pinv n) (acc : ℚ) (s : FdiffState n) (s2 : BroydenState n)
    (ji : Mat n) :
    (maxRelLoop (fdiff_xnew s - s.x_last) (fdiff_xnew s) < TOLX →
      fdiffStep fxn jacF pinv acc s = .inl (.ok (s.x_last, .xconv))) ∧
    (¬ maxRelLoop (fdiff_xnew s - s.x_last) (fdiff_xnew s) < TOLX →
      maxSignedLoop (fxn (fdiff_xnew s)) < acc →
      fdiffStep fxn jacF pinv acc s = .inl (.ok (fdiff_xnew s, .fconv))) ∧
    (pinv INV_TOL s2.jac = .ok ji →
      maxRelLoop (broyden_xnew s2 ji - s2.x_last) (broyden_xnew s2 ji) < TOLX →
      broydenStep fxn pinv acc s2 = .inl (.ok (s2.x_last, .xconv))) ∧
    (pinv INV_TOL s2.jac = .ok ji →
      ¬ maxRelLoop (broyden_xnew s2 ji - s2.x_last) (broyden_xnew s2 ji) < TOLX →
      maxAbsLoop (fxn (broyden_xnew s2 ji)) < acc →
      broydenStep fxn pinv acc s2 = .inl (.ok (broyden_xnew s2 ji, .fconv))) := by
  refine ⟨?_, ?_, ?_, ?_⟩
  · intro h1
    rw [fdiffStep, if_pos h1]
  · intro h1 h2
    rw [fdiffStep, if_neg h1, if_pos h2]
  · intro hp h1
    rw [broydenStep, hp]
    simp only []
    rw [if_pos h1]
  · intro hp h1 h2
    rw [broydenStep, hp]
    simp only []
    rw [if_neg h1, if_pos h2]

set_option maxRecDepth 100000 in
/-- C4, witness: a zero-step state makes each driver's x-convergence branch
return the pre-step `x_last`, and a converging residual makes each driver's
f-branch return `x_new`, at concrete states. -/
theorem c4_xconv_returns_xlast_fconv_returns_xnew_witness :
    fdiffStep Fnegsq (fdiff_jacobian_model (1 / 1000)) pinv_model (1 / 2)
        ⟨![1], ![0], ![![1]]⟩ = .inl (.ok (![1], .xconv)) ∧
    fdiffStep Fnegsq (fdiff_jacobian_model (1 / 1000)) pinv_model (1 / 2)
        ⟨![1], ![-2], ![![-(1000 / 2001)]]⟩ =
      .inl (.ok (fdiff_xnew ⟨![1], ![-2], ![![-(1000 / 2001)]]⟩, .fconv)) ∧
    broydenStep Fconst2 pinv_model 1 ⟨![0], ![2], ![![0]]⟩ = .inl (.ok (![0], .xconv)) ∧
    broydenStep Flin pinv_model 1 ⟨![0], ![-3], ![![1]]⟩ =
      .inl (.ok (broyden_xnew ⟨![0], ![-3], ![![1]]⟩ (fun _ _ => 1), .fconv)) := by
  refine ⟨?_, ?_, ?_, ?_⟩
  · exact (c4_xconv_returns_xlast_fconv_returns_xnew Fnegsq (fdiff_jacobian_model (1 / 1000))
      pinv_model (1 / 2) ⟨![1], ![0], ![![1]]⟩ ⟨![0], ![0], ![![0]]⟩ (fun _ _ => 0)).1
      (by with_unfolding_all decide)
  · exact (c4_xconv_returns_xlast_fconv_returns_xnew Fnegsq (fdiff_jacobian_model (1 / 1000))
      pinv_model (1 / 2) ⟨![1], ![-2], ![![-(1000 / 2001)]]⟩ ⟨![0], ![0], ![![0]]⟩
      (fun _ _ => 0)).2.1
      (by with_unfolding_all decide) (by with_unfolding_all decide)
  · exact (c4_xconv_returns_xlast_fconv_returns_xnew Fconst2 (fdiff_jacobian_model (1 / 1000))
      pinv_model 1 ⟨![0], ![0], ![![0]]⟩ ⟨![0], ![2], ![![0]]⟩ (fun _ _ => 0)).2.2.1
      (by with_unfolding_all decide) (by with_unfolding_all decide)
  · exact (c4_xconv_returns_xlast_fconv_returns_xnew Flin (fdiff_jacobian_model (1 / 1000))
      pinv_model 1 ⟨![0], ![0], ![![0]]⟩ ⟨![0], ![-3], ![![1]]⟩ (fun _ _ => 1)).2.2.2
      (by with_unfolding_all decide) (by with_unfolding_all decide)
      (by with_unfolding_all decide)

/-- C5: when `max_i |F(x₀)_i| < 0.01·acc`, every driver returns `Ok(x₀)` with
`x₀` unchanged through the initial already-root shortcut — for **every**
Jacobian-estimator, pseudo-inverse, line-search and norm collaborator, i.e.
before any of them (in particular the Jacobian estimation) is consulted, and
depending on `F` only through its single evaluation at `x₀`. -/
theorem c5_already_root_shortcut {n : Nat} (jacF jacF2 : JacEst n) (pinv : Pinv n)
    (lsP : LinSearch n) (normV : Vec n → ℚ) (fxn : Vec n → Vec n) (x_0 : Vec n) (acc : ℚ)
    (h : maxAbsLoop (fxn x_0) < 1 / 100 * acc) :
    newton_raphson_fdiffT jacF pinv fxn x_0 acc = .ok (x_0, .shortcut) ∧
    newton_raphson_broydenT jacF2 pinv fxn x_0 acc = .ok (x_0, .shortcut) ∧
    newton_raphson_linsrchT jacF pinv lsP normV fxn x_0 acc = .ok (x_0, .shortcut) := by
  refine ⟨?_, ?_, ?_⟩
  · rw [newton_raphson_fdiffT, if_pos h]
  · rw [newton_raphson_broydenT, if_pos h]
  · simp only [newton_raphson_linsrchT, fminOf]
    rw [if_pos h]

/-- C5, witness: the zero residual from the zero initial guess takes the
shortcut in all three drivers. -/
theorem c5_already_root_shortcut_witness :
    newton_raphson_fdiffT (fdiff_jacobian_model (1 / 1000)) pinv_model Fzero ![7] 1 =
      .ok (![7], .shortcut) ∧
    newton_raphson_broydenT (fdiff_jacobian_model (1 / 1000)) pinv_model Fzero ![7] 1 =
      .ok (![7], .shortcut) ∧
    newton_raphson_linsrchT (fdiff_jacobian_model (1 / 1000)) pinv_model ls_full_step
      normDouble Fzero ![7] 1 = .ok (![7], .shortcut) :=
  c5_already_root_shortcut (fdiff_jacobian_model (1 / 1000)) (fdiff_jacobian_model (1 / 1000))
    pinv_model ls_full_step normDouble Fzero ![7] 1 (by with_unfolding_all decide)

/-- C6: every driver's loop executes at most `MAX_ITER = 200` iterations (the
loops are structurally bounded by their fuel, so every solve terminates), and
whenever no convergence branch fires and no error occurs for 200 consecutive
iterations the driver returns its maximum-iterations-reached error. -/
theorem c6_iteration_bound {n : Nat} (jacF jacF2 : JacEst n) (pinv : Pinv n)
    (lsP : LinSearch n) (normV : Vec n → ℚ) (fxn : Vec n → Vec n) (x_0 : Vec n) (acc : ℚ)
    (ji : Mat n) (s : FdiffState n) (s2 : BroydenState n) (s3 : LinsrchState n) (stepmax : ℚ) :
    (fdiffLoop fxn jacF pinv acc MAX_ITER s).2 ≤ MAX_ITER ∧
    (broydenLoop fxn pinv acc MAX_ITER s2).2 ≤ MAX_ITER ∧
    (linsrchLoop fxn jacF pinv lsP stepmax acc MAX_ITER s3).2 ≤ MAX_ITER ∧
    (¬ maxAbsLoop (fxn x_0) < 1 / 100 * acc →
      pinv INV_TOL (jacF fxn (fxn x_0) x_0) = .ok ji →
      fdiffAllContinue fxn jacF pinv acc MAX_ITER ⟨x_0, fxn x_0, ji⟩ = true →
      newton_raphson_fdiff jacF pinv fxn x_0 acc =
        .error "Maximum Number of Iterations Reached") ∧
    (¬ maxAbsLoop (fxn x_0) < 1 / 100 * acc →
      broydenAllContinue fxn pinv acc MAX_ITER ⟨x_0, fxn x_0, jacF2 fxn (fxn x_0) x_0⟩ = true →
      newton_raphson_broyden jacF2 pinv fxn x_0 acc =
        .error "[NEWTON BROYDEN] Maximum Number of Iterations Reached") ∧
    (¬ maxAbsLoop (fxn x_0) < 1 / 100 * acc →
      linsrchAllContinue fxn jacF pinv lsP (STEP_MAX * max (normV x_0) (n : ℚ)) acc MAX_ITER
          ⟨x_0, fxn x_0, 1 / 2 * dotV (fxn x_0) (fxn x_0)⟩ = true →
      newton_raphson_linsrch jacF pinv lsP normV fxn x_0 acc =
        .error "Maximum Number of Iterations Reached") := by
  refine ⟨fdiffLoop_count_le fxn jacF pinv acc MAX_ITER s,
    broydenLoop_count_le fxn pinv acc MAX_ITER s2,
    linsrchLoop_count_le fxn jacF pinv lsP stepmax acc MAX_ITER s3, ?_, ?_, ?_⟩
  · intro hsc hp hc
    rw [newton_raphson_fdiff, newton_raphson_fdiffT, if_neg hsc, hp]
    simp only []
    rw [fdiffLoop_error_of_allContinue fxn jacF pinv acc MAX_ITER _ hc]
    rfl
  · intro hsc hc
    rw [newton_raphson_broyden, newton_raphson_broydenT, if_neg hsc]
    rw [broydenLoop_error_of_allContinue fxn pinv acc MAX_ITER _ hc]
    rfl
  · intro hsc hc
    simp only [newton_raphson_linsrch, newton_raphson_linsrchT, fminOf]
    rw [if_neg hsc]
    rw [linsrchLoop_error_of_allContinue fxn jacF pinv lsP _ acc MAX_ITER _ hc]
    rfl

set_option maxRecDepth 400000 in
/-- C6, witness: engineered never-converging runs — a pseudo-inverse double
that always returns the identity makes the constant residual `F ≡ (1)` drift
by one forever in the finite-difference and Broyden drivers, and a drifting
line-search double does the same for the line-search driver; all three exhaust
exactly 200 iterations and return their maximum-iterations error. -/
theorem c6_iteration_bound_witness :
    (fdiffLoop Fconst1 (fdiff_jacobian_model (1 / 1000)) pinv_one (1 / 2) MAX_ITER
        ⟨![0], ![1], fun _ _ => 1⟩).2 ≤ MAX_ITER ∧
    (broydenLoop Fconst1 pinv_one (1 / 2) MAX_ITER ⟨![0], ![1], fun _ _ => 0⟩).2 ≤ MAX_ITER ∧
    (linsrchLoop Fconst1 (fdiff_jacobian_model (1 / 1000)) pinv_one ls_drift 100 (1 / 2)
        MAX_ITER ⟨![0], ![1], 1 / 2⟩).2 ≤ MAX_ITER ∧
    newton_raphson_fdiff (fdiff_jacobian_model (1 / 1000)) pinv_one Fconst1 ![0] (1 / 2) =
      .error "Maximum Number of Iterations Reached" ∧
    newton_raphson_broyden (fdiff_jacobian_model (1 / 1000)) pinv_one Fconst1 ![0] (1 / 2) =
      .error "[NEWTON BROYDEN] Maximum Number of Iterations Reached" ∧
    newton_raphson_linsrch (fdiff_jacobian_model (1 / 1000)) pinv_one ls_drift normDouble
      Fconst1 ![0] (1 / 2) = .error "Maximum Number of Iterations Reached" := by
  obtain ⟨h1, h2, h3, h4, h5, h6⟩ := c6_iteration_bound (n := 1)
    (fdiff_jacobian_model (1 / 1000)) (fdiff_jacobian_model (1 / 1000)) pinv_one ls_drift
    normDouble Fconst1 ![0] (1 / 2) (fun _ _ => 1) ⟨![0], ![1], fun _ _ => 1⟩
    ⟨![0], ![1], fun _ _ => 0⟩ ⟨![0], ![1], 1 / 2⟩ 100
  exact ⟨h1, h2, h3,
    h4 (by with_unfolding_all decide) (by with_unfolding_all decide)
      (by with_unfolding_all decide),
    h5 (by with_unfolding_all decide) (by with_unfolding_all decide),
    h6 (by with_unfolding_all decide) (by with_unfolding_all decide)⟩

/-- C7: in `newton_raphson_broyden` the finite-difference estimator is
consulted exactly once — at `x₀`, reusing the already-computed residual
`F(x₀)` (the whole solve depends on the estimator only through that single
value) — and a continuing iteration steps with the pseudo-inverse of the
current Jacobian and replaces the Jacobian by exactly the rank-one Broyden
update `J + ((ΔF − J·Δx)/‖Δx‖²)·Δxᵗ`. -/
theorem c7_broyden_jacobian_once_then_rank_one {n : Nat} (jacF2 jacF2' : JacEst n)
    (pinv : Pinv n) (fxn : Vec n → Vec n) (x_0 : Vec n) (acc : ℚ)
    (s s' : BroydenState n) (ji : Mat n) :
    (jacF2 fxn (fxn x_0) x_0 = jacF2' fxn (fxn x_0) x_0 →
      newton_raphson_broydenT jacF2 pinv fxn x_0 acc =
        newton_raphson_broydenT jacF2' pinv fxn x_0 acc) ∧
    (pinv INV_TOL s.jac = .ok ji →
      broydenStep fxn pinv acc s = .inr s' →
      s'.x_last = broyden_xnew s ji ∧
      s'.f_n = fxn (broyden_xnew s ji) ∧
      s'.jac = fun i j => s.jac i j +
        (s'.f_n i - s.f_n i - mulVec s.jac (s'.x_last - s.x_last) i) /
          normSq (s'.x_last - s.x_last) * (s'.x_last j - s.x_last j)) := by
  constructor
  · intro h
    simp only [newton_raphson_broydenT]
    rw [h]
  · intro hp hstep
    rw [broydenStep, hp] at hstep
    simp only [] at hstep
    split_ifs at hstep with h1 h2
    injection hstep with h
    subst h
    refine ⟨rfl, rfl, ?_⟩
    funext i j
    simp only [Pi.sub_apply]

set_option maxRecDepth 100000 in
/-- C7, witness: one continuing Broyden iteration on `F(x) = x² - 4` from the
state `(x 1, F -3, J 2)` steps to `x = 5/2` and updates the Jacobian to
`7/2`, exactly the rank-one formula; and the solver's result is unchanged when
the estimator is replaced by any function agreeing at `(F, F(x₀), x₀)`. -/
theorem c7_broyden_jacobian_once_then_rank_one_witness :
    (newton_raphson_broydenT (fdiff_jacobian_model (1 / 1000)) pinv_model Fconst2 ![0] 1 =
      newton_raphson_broydenT (fun _ _ _ => fun _ _ => 0) pinv_model Fconst2 ![0] 1) ∧
    ((BroydenState.mk ![5 / 2] ![9 / 4] ![![7 / 2]]).x_last =
        broyden_xnew ⟨![1], ![-3], ![![2]]⟩ (fun _ _ => 1 / 2) ∧
      (BroydenState.mk ![5 / 2] ![9 / 4] ![![7 / 2]]).f_n =
        Fsqm4 (broyden_xnew ⟨![1], ![-3], ![![2]]⟩ (fun _ _ => 1 / 2)) ∧
      (BroydenState.mk ![5 / 2] ![9 / 4] ![![7 / 2]]).jac = fun i j =>
        (BroydenState.mk ![(1 : ℚ)] ![-3] ![![2]]).jac i j +
          ((BroydenState.mk ![(5 : ℚ) / 2] ![9 / 4] ![![7 / 2]]).f_n i -
              (BroydenState.mk ![(1 : ℚ)] ![-3] ![![2]]).f_n i -
            mulVec (BroydenState.mk ![(1 : ℚ)] ![-3] ![![2]]).jac
              ((BroydenState.mk ![(5 : ℚ) / 2] ![9 / 4] ![![7 / 2]]).x_last -
                (BroydenState.mk ![(1 : ℚ)] ![-3] ![![2]]).x_last) i) /
            normSq ((BroydenState.mk ![(5 : ℚ) / 2] ![9 / 4] ![![7 / 2]]).x_last -
              (BroydenState.mk ![(1 : ℚ)] ![-3] ![![2]]).x_last) *
            ((BroydenState.mk ![(5 : ℚ) / 2] ![9 / 4] ![![7 / 2]]).x_last j -
              (BroydenState.mk ![(1 : ℚ)] ![-3] ![![2]]).x_last j)) := by
  constructor
  · exact (c7_broyden_jacobian_once_then_rank_one (fdiff_jacobian_model (1 / 1000))
      (fun _ _ _ => fun _ _ => 0) pinv_model Fconst2 ![0] 1 ⟨![0], ![0], ![![0]]⟩
      ⟨![0], ![0], ![![0]]⟩ (fun _ _ => 0)).1 (by with_unfolding_all decide)
  · exact (c7_broyden_jacobian_once_then_rank_one (fdiff_jacobian_model (1 / 1000))
      (fdiff_jacobian_model (1 / 1000)) pinv_model Fsqm4 ![0] 1 ⟨![1], ![-3], ![![2]]⟩
      ⟨![5 / 2], ![9 / 4], ![![7 / 2]]⟩ (fun _ _ => 1 / 2)).2
      (by with_unfolding_all decide) (by with_unfolding_all decide)

/-- C8: a failing pseudo-inverse is propagated immediately as the solver's own
error: the initial inversion of `newton_raphson_fdiff` aborts the whole solve,
an in-loop inversion failure makes the iteration return the error
(`Sum.inl`), and a loop whose step returns an error stops with exactly that
error after that single iteration — no retry, no fallback, no further
iterations, in all three drivers. -/
theorem c8_pinv_error_propagates {n : Nat} (fxn : Vec n → Vec n) (jacF : JacEst n)
    (pinv : Pinv n) (lsP : LinSearch n) (x_0 : Vec n) (stepmax acc : ℚ) (e : String)
    (s : FdiffState n) (s2 : BroydenState n) (s3 : LinsrchState n) (fuel : Nat) :
    (¬ maxAbsLoop (fxn x_0) < 1 / 100 * acc →
      pinv INV_TOL (jacF fxn (fxn x_0) x_0) = .error e →
      newton_raphson_fdiffT jacF pinv fxn x_0 acc = .error e) ∧
    (¬ maxRelLoop (fdiff_xnew s - s.x_last) (fdiff_xnew s) < TOLX →
      ¬ maxSignedLoop (fxn (fdiff_xnew s)) < acc →
      pinv INV_TOL (jacF fxn (fxn (fdiff_xnew s)) (fdiff_xnew s)) = .error e →
      fdiffStep fxn jacF pinv acc s = .inl (.error e)) ∧
    (pinv INV_TOL s2.jac = .error e →
      broydenStep fxn pinv acc s2 = .inl (.error e)) ∧
    (pinv INV_TOL (jacF fxn s3.f_vec s3.x_new) = .error e →
      linsrchStep fxn jacF pinv lsP stepmax acc s3 = .inl (.error e)) ∧
    (fdiffStep fxn jacF pinv acc s = .inl (.error e) →
      fdiffLoop fxn jacF pinv acc (fuel + 1) s = (.error e, 1)) ∧
    (broydenStep fxn pinv acc s2 = .inl (.error e) →
      broydenLoop fxn pinv acc (fuel + 1) s2 = (.error e, 1)) ∧
    (linsrchStep fxn jacF pinv lsP stepmax acc s3 = .inl (.error e) →
      linsrchLoop fxn jacF pinv lsP stepmax acc (fuel + 1) s3 = (.error e, 1)) := by
  refine ⟨?_, ?_, ?_, ?_, ?_, ?_, ?_⟩
  · intro hsc hp
    rw [newton_raphson_fdiffT, if_neg hsc, hp]
  · intro h1 h2 hp
    rw [fdiffStep, if_neg h1, if_neg h2, hp]
  · intro hp
    rw [broydenStep, hp]
  · intro hp
    rw [linsrchStep, hp]
  · intro hstep
    simp only [fdiffLoop, hstep]
  · intro hstep
    simp only [broydenLoop, hstep]
  · intro hstep
    simp only [linsrchLoop, hstep]

set_option maxRecDepth 100000 in
/-- C8, witness: with an always-failing pseudo-inverse double, the
finite-difference solve aborts before its loop, each driver's iteration
returns the error at concrete non-converged states, and each loop stops with
that error after one iteration. -/
theorem c8_pinv_error_propagates_witness :
    newton_raphson_fdiffT (fdiff_jacobian_model (1 / 1000)) pinv_fail Fsq ![1] 1 =
      .error "SVD failed" ∧
    fdiffStep Fsq (fdiff_jacobian_model (1 / 1000)) pinv_fail 1 ⟨![0], ![3], ![![1]]⟩ =
      .inl (.error "SVD failed") ∧
    broydenStep Fsq pinv_fail 1 ⟨![0], ![3], ![![1]]⟩ = .inl (.error "SVD failed") ∧
    linsrchStep Fsq (fdiff_jacobian_model (1 / 1000)) pinv_fail ls_full_step 100 1
      ⟨![0], ![3], 9 / 2⟩ = .inl (.error "SVD failed") ∧
    fdiffLoop Fsq (fdiff_jacobian_model (1 / 1000)) pinv_fail 1 MAX_ITER ⟨![0], ![3], ![![1]]⟩ =
      (.error "SVD failed", 1) ∧
    broydenLoop Fsq pinv_fail 1 MAX_ITER ⟨![0], ![3], ![![1]]⟩ = (.error "SVD failed", 1) ∧
    linsrchLoop Fsq (fdiff_jacobian_model (1 / 1000)) pinv_fail ls_full_step 100 1 MAX_ITER
      ⟨![0], ![3], 9 / 2⟩ = (.error "SVD failed", 1) := by
  obtain ⟨h1, h2, h3, h4, h5, h6, h7⟩ := c8_pinv_error_propagates Fsq
    (fdiff_jacobian_model (1 / 1000)) pinv_fail ls_full_step ![1] 100 1 "SVD failed"
    ⟨![0], ![3], ![![1]]⟩ ⟨![0], ![3], ![![1]]⟩ ⟨![0], ![3], 9 / 2⟩ (MAX_ITER - 1)
  have e2 := h2 (by with_unfolding_all decide) (by with_unfolding_all decide) rfl
  have e3 := h3 rfl
  have e4 := h4 rfl
  exact ⟨h1 (by with_unfolding_all decide) rfl, e2, e3, e4, h5 e2, h6 e3, h7 e4⟩

/-- C9: each driver is a pure function of its arguments — equal inputs give
equal results, and the result depends on the residual function only through
its (deterministic) input/output behaviour, with no state outside the call:
the embedding of each solver is a function of `(collaborators, F, x₀, acc)`
alone, so two calls with extensionally equal `F` and equal remaining
arguments return equal results. -/
theorem c9_solvers_deterministic {n : Nat} (jacF jacF2 : JacEst n) (pinv : Pinv n)
    (lsP : LinSearch n) (normV : Vec n → ℚ) (fxn fxn' : Vec n → Vec n) (x_0 : Vec n)
    (acc : ℚ) (h : ∀ x, fxn x = fxn' x) :
    newton_raphson_fdiff jacF pinv fxn x_0 acc = newton_raphson_fdiff jacF pinv fxn' x_0 acc ∧
    newton_raphson_broyden jacF2 pinv fxn x_0 acc =
      newton_raphson_broyden jacF2 pinv fxn' x_0 acc ∧
    newton_raphson_linsrch jacF pinv lsP normV fxn x_0 acc =
      newton_raphson_linsrch jacF pinv lsP normV fxn' x_0 acc := by
  have hf : fxn = fxn' := funext h
  subst hf
  exact ⟨rfl, rfl, rfl⟩

set_option maxRecDepth 100000 in
/-- C9, witness: the solvers cannot distinguish two syntactically different
but extensionally equal residual functions. -/
theorem c9_solvers_deterministic_witness :
    newton_raphson_fdiff (fdiff_jacobian_model (1 / 1000)) pinv_model Fconst1 ![0] 1 =
      newton_raphson_fdiff (fdiff_jacobian_model (1 / 1000)) pinv_model (fun _ => ![2 - 1])
        ![0] 1 ∧
    newton_raphson_broyden (fdiff_jacobian_model (1 / 1000)) pinv_model Fconst1 ![0] 1 =
      newton_raphson_broyden (fdiff_jacobian_model (1 / 1000)) pinv_model (fun _ => ![2 - 1])
        ![0] 1 ∧
    newton_raphson_linsrch (fdiff_jacobian_model (1 / 1000)) pinv_model ls_full_step normDouble
        Fconst1 ![0] 1 =
      newton_raphson_linsrch (fdiff_jacobian_model (1 / 1000)) pinv_model ls_full_step normDouble
        (fun _ => ![2 - 1]) ![0] 1 :=
  c9_solvers_deterministic (fdiff_jacobian_model (1 / 1000)) (fdiff_jacobian_model (1 / 1000))
    pinv_model ls_full_step normDouble Fconst1 (fun _ => ![2 - 1]) ![0] 1
    (fun _ => by show (![1] : Vec 1) = ![2 - 1]; with_unfolding_all decide)

/-- C10: whenever the rank-one Broyden update actually runs — i.e. the
iteration neither returns nor errors but continues to a next state — the
x-convergence test has failed, so the relative step size is at least `TOLX`
and the update's divisor `‖Δx‖²` is strictly positive; the division-by-zero
path is unreachable. -/
theorem c10_broyden_update_divisor_positive {n : Nat} (fxn : Vec n → Vec n) (pinv : Pinv n)
    (acc : ℚ) (s s' : BroydenState n)
    (hstep : broydenStep fxn pinv acc s = .inr s') :
    TOLX ≤ maxRelLoop (s'.x_last - s.x_last) s'.x_last ∧
    0 < normSq (s'.x_last - s.x_last) := by
  rw [broydenStep] at hstep
  cases hp : pinv INV_TOL s.jac with
  | error e => rw [hp] at hstep; simp at hstep
  | ok ji =>
    rw [hp] at hstep
    simp only [] at hstep
    split_ifs at hstep with h1 h2
    injection hstep with h
    subst h
    simp only []
    have hx : TOLX ≤ maxRelLoop (broyden_xnew s ji - s.x_last) (broyden_xnew s ji) :=
      le_of_not_lt h1
    refine ⟨hx, ?_⟩
    rcases lt_or_eq_of_le (normSq_nonneg (broyden_xnew s ji - s.x_last)) with hpos | hzero
    · exact hpos
    · exfalso
      have hzero' : ∀ i, (broyden_xnew s ji - s.x_last) i = 0 := by
        intro i
        by_contra hi
        exact absurd (normSq_pos_of_ne hi) (by rw [← hzero]; exact lt_irrefl 0)
      have := maxRelLoop_nonpos_of_zero (broyden_xnew s ji) hzero'
      have : TOLX ≤ 0 := le_trans hx this
      rw [TOLX] at this
      norm_num at this

set_option maxRecDepth 100000 in
/-- C10, witness: the continuing Broyden iteration on `F(x) = x² - 4` has a
relative step of at least `TOLX` and a strictly positive update divisor. -/
theorem c10_broyden_update_divisor_positive_witness :
    TOLX ≤ maxRelLoop ((BroydenState.mk ![(5 : ℚ) / 2] ![9 / 4] ![![7 / 2]]).x_last -
        (BroydenState.mk ![(1 : ℚ)] ![-3] ![![2]]).x_last)
      (BroydenState.mk ![(5 : ℚ) / 2] ![9 / 4] ![![7 / 2]]).x_last ∧
    0 < normSq ((BroydenState.mk ![(5 : ℚ) / 2] ![9 / 4] ![![7 / 2]]).x_last -
        (BroydenState.mk ![(1 : ℚ)] ![-3] ![![2]]).x_last) :=
  c10_broyden_update_divisor_positive Fsqm4 pinv_model 1 ⟨![1], ![-3], ![![2]]⟩
    ⟨![5 / 2], ![9 / 4], ![![7 / 2]]⟩ (by with_unfolding_all decide)
